import Mathlib

/-!
Verification development for the cortex runtime-configuration manager and
querier helpers (`pkg/util/runtimeconfig/manager.go`, blocks-context and
series-set helpers in `pkg/querier`).  Go code is shallowly embedded:
bytes are `Nat` values below 256, machine words are `Nat` modulo `2 ^ 32`,
fallible calls return `Except String`, and the manager's mutable state is
threaded explicitly through pure functions.
-/

namespace Cortex

/-! ### SHA-256 (`crypto/sha256.Sum256` followed by `fmt.Sprintf` with the
lowercase-hex verb), executable over lists of byte values. -/

/-- Truncate to a 32-bit word. -/
def w32 (x : Nat) : Nat := x % 4294967296

/-- Right rotation of a 32-bit word by `n` bits. -/
def rotr32 (n x : Nat) : Nat := w32 ((x >>> n) ||| (x <<< (32 - n)))

/-- Bitwise complement of a 32-bit word. -/
def not32 (x : Nat) : Nat := 4294967295 - x % 4294967296

def bsig0 (x : Nat) : Nat := rotr32 2 x ^^^ rotr32 13 x ^^^ rotr32 22 x

def bsig1 (x : Nat) : Nat := rotr32 6 x ^^^ rotr32 11 x ^^^ rotr32 25 x

def ssig0 (x : Nat) : Nat := rotr32 7 x ^^^ rotr32 18 x ^^^ (x >>> 3)

def ssig1 (x : Nat) : Nat := rotr32 17 x ^^^ rotr32 19 x ^^^ (x >>> 10)

def chFn (x y z : Nat) : Nat := (x &&& y) ^^^ (not32 x &&& z)

def majFn (x y z : Nat) : Nat := (x &&& y) ^^^ (x &&& z) ^^^ (y &&& z)

/-- The 64 SHA-256 round constants of FIPS 180-4, in decimal. -/
def sha256K : List Nat :=
  [1116352408, 1899447441, 3049323471, 3921009573, 961987163,
   1508970993, 2453635748, 2870763221, 3624381080, 310598401,
   607225278, 1426881987, 1925078388, 2162078206, 2614888103,
   3248222580, 3835390401, 4022224774, 264347078, 604807628,
   770255983, 1249150122, 1555081692, 1996064986, 2554220882,
   2821834349, 2952996808, 3210313671, 3336571891, 3584528711,
   113926993, 338241895, 666307205, 773529912, 1294757372,
   1396182291, 1695183700, 1986661051, 2177026350, 2456956037,
   2730485921, 2820302411, 3259730800, 3345764771, 3516065817,
   3600352804, 4094571909, 275423344, 430227734, 506948616,
   659060556, 883997877, 958139571, 1322822218, 1537002063,
   1747873779, 1955562222, 2024104815, 2227730452, 2361852424,
   2428436474, 2756734187, 3204031479, 3329325298]

/-- Working state of the SHA-256 compression function (eight 32-bit words). -/
structure Sha256State where
  a : Nat
  b : Nat
  c : Nat
  d : Nat
  e : Nat
  f : Nat
  g : Nat
  h : Nat
deriving Repr, DecidableEq

/-- The SHA-256 initial hash value of FIPS 180-4, in decimal. -/
def sha256H0 : Sha256State :=
  ⟨1779033703, 3144134277, 1013904242, 2773480762,
   1359893119, 2600822924, 528734635, 1541459225⟩

/-- Eight big-endian bytes of the 64-bit message bit length. -/
def beBytes8 (n : Nat) : List Nat :=
  [w32 (n >>> 56) % 256, (n >>> 48) % 256, (n >>> 40) % 256, (n >>> 32) % 256,
   (n >>> 24) % 256, (n >>> 16) % 256, (n >>> 8) % 256, n % 256]

/-- SHA-256 padding: a 0x80 byte, zeros to 56 mod 64, then the bit length. -/
def padMessage (msg : List Nat) : List Nat :=
  msg ++ [128] ++ List.replicate ((119 - msg.length % 64) % 64) 0
      ++ beBytes8 (8 * msg.length)

/-- Group bytes into big-endian 32-bit words. -/
def toWords : List Nat → List Nat
  | a :: b :: c :: d :: rest =>
      (a * 16777216 + b * 65536 + c * 256 + d) :: toWords rest
  | _ => []

/-- Group 32-bit words into blocks of sixteen. -/
def toBlocks : List Nat → List (List Nat)
  | x0 :: x1 :: x2 :: x3 :: x4 :: x5 :: x6 :: x7 ::
    x8 :: x9 :: x10 :: x11 :: x12 :: x13 :: x14 :: x15 :: rest =>
      [x0, x1, x2, x3, x4, x5, x6, x7, x8, x9, x10, x11, x12, x13, x14, x15]
        :: toBlocks rest
  | _ => []

/-- Extend the sixteen-word message schedule by `n` further words. -/
def scheduleExtend : Nat → List Nat → List Nat
  | 0, ws => ws
  | n + 1, ws =>
      scheduleExtend n (ws ++ [w32 (ssig1 (ws.getD (ws.length - 2) 0)
        + ws.getD (ws.length - 7) 0
        + ssig0 (ws.getD (ws.length - 15) 0)
        + ws.getD (ws.length - 16) 0)])

/-- The 64-entry message schedule of one block. -/
def schedule (block : List Nat) : List Nat := scheduleExtend 48 block

/-- One SHA-256 compression round. -/
def sha256Round (st : Sha256State) (k w : Nat) : Sha256State :=
  let t1 := w32 (st.h + bsig1 st.e + chFn st.e st.f st.g + k + w)
  let t2 := w32 (bsig0 st.a + majFn st.a st.b st.c)
  ⟨w32 (t1 + t2), st.a, st.b, st.c, w32 (st.d + t1), st.e, st.f, st.g⟩

/-- Compress one 16-word block into the running hash state. -/
def compressBlock (st : Sha256State) (block : List Nat) : Sha256State :=
  let ws := schedule block
  let fin := (List.zip sha256K ws).foldl
    (fun s kw => sha256Round s kw.1 kw.2) st
  ⟨w32 (st.a + fin.a), w32 (st.b + fin.b), w32 (st.c + fin.c),
   w32 (st.d + fin.d), w32 (st.e + fin.e), w32 (st.f + fin.f),
   w32 (st.g + fin.g), w32 (st.h + fin.h)⟩

/-- Big-endian bytes of one 32-bit word. -/
def wordBytes (w : Nat) : List Nat :=
  [(w >>> 24) % 256, (w >>> 16) % 256, (w >>> 8) % 256, w % 256]

/-- SHA-256 digest of a byte list, as 32 bytes. -/
def sha256 (msg : List Nat) : List Nat :=
  let st := (toBlocks (toWords (padMessage msg))).foldl compressBlock sha256H0
  wordBytes st.a ++ wordBytes st.b ++ wordBytes st.c ++ wordBytes st.d
    ++ wordBytes st.e ++ wordBytes st.f ++ wordBytes st.g ++ wordBytes st.h

/-- Lowercase hexadecimal digit. -/
def hexDigit (n : Nat) : Char :=
  if n < 10 then Char.ofNat (48 + n) else Char.ofNat (87 + n)

/-- A byte as two lowercase hex digits, as produced by the Go hex verb. -/
def byteToHex (b : Nat) : String := String.mk [hexDigit (b / 16), hexDigit (b % 16)]

/-- A byte list as a lowercase hex string. -/
def bytesToHex (bs : List Nat) : String := String.join (bs.map byteToHex)

/-- Lowercase hex SHA-256 digest of a byte list: this is what
`fmt.Sprintf` with the hex verb applied to `sha256.Sum256(buf)` yields. -/
def sha256hex (msg : List Nat) : String := bytesToHex (sha256 msg)

end Cortex

namespace Cortex

/-! ### Blocks-in-context helpers (`pkg/querier`, `InjectBlocksIntoContext`
and `ExtractBlocksFromContext`).  A Go `context.Context` is modelled as a
chain of `WithValue` nodes over a background context; `value` walks the
chain and returns the most recently stored value for a key.  `some`
models a non-nil interface result: the injected slice is always stored as
a typed (hence non-nil) interface value, even when the variadic argument
list is empty and the slice itself is nil — an empty list models that nil
slice. -/

/-- A Go context carrying values of type `List α` under integer keys
(the package key type `contextKey` is an integer type). -/
inductive GoCtx (α : Type) where
  | background
  | withValue (parent : GoCtx α) (key : Int) (val : List α)
deriving Repr, DecidableEq

/-- The `ctx.Value(key)` lookup: most recent binding of the key wins. -/
def GoCtx.value {α} : GoCtx α → Int → Option (List α)
  | .background, _ => none
  | .withValue p k v, key => if k = key then some v else p.value key

/-- The package-private context key `blockCtxKey contextKey = 0`. -/
def blockCtxKey : Int := 0

/-- Embedding of `InjectBlocksIntoContext`: stores the block slice under
`blockCtxKey`. -/
def InjectBlocksIntoContext {α} (ctx : GoCtx α) (blocks : List α) : GoCtx α :=
  .withValue ctx blockCtxKey blocks

/-- Embedding of `ExtractBlocksFromContext`: returns the stored slice and
`true` when the key is bound (a non-nil interface), else `(nil, false)`. -/
def ExtractBlocksFromContext {α} (ctx : GoCtx α) : List α × Bool :=
  match ctx.value blockCtxKey with
  | some blocks => (blocks, true)
  | none => ([], false)

/-- A context in which no `withValue` node ever used `blockCtxKey`; the
key type is package-private, so foreign context layers satisfy this. -/
def neverInjected {α} : GoCtx α → Bool
  | .background => true
  | .withValue p k _ => (decide (k ≠ blockCtxKey)) && neverInjected p

/-! ### `storeSeriesSet` (`pkg/querier`): an iterator over a list of
series, with the Go `int` index modelled as `Int` (it starts at `-1`). -/

/-- One `storepb.Series`, reduced to its labels and chunk list; label and
chunk payloads stay abstract. -/
structure Series (L C : Type) where
  lbls : L
  chunks : List C
deriving Repr, DecidableEq

/-- Embedding of the `storeSeriesSet` struct. -/
structure storeSeriesSet (L C : Type) where
  series : List (Series L C)
  i : Int
deriving Repr, DecidableEq

/-- Embedding of `newStoreSeriesSet`: index starts at `-1`. -/
def newStoreSeriesSet {L C} (s : List (Series L C)) : storeSeriesSet L C :=
  ⟨s, -1⟩

/-- Embedding of `Next`: returns the mutated receiver and the Go return
value. -/
def storeSeriesSet.Next {L C} (s : storeSeriesSet L C) : storeSeriesSet L C × Bool :=
  if s.i ≥ (s.series.length : Int) - 1 then (s, false)
  else ({ s with i := s.i + 1 }, true)

/-- Embedding of `Err`: always nil. -/
def storeSeriesSet.Err {L C} (_ : storeSeriesSet L C) : Option String := none

/-- Embedding of `At`: the Go code indexes `s.series[s.i]`, which panics
out of bounds; the partiality (negative or too-large index) is made
explicit with `Option`. -/
def storeSeriesSet.At {L C} (s : storeSeriesSet L C) : Option (L × List C) :=
  if 0 ≤ s.i then
    (s.series.get? s.i.toNat).map (fun e => (e.lbls, e.chunks))
  else none

/-- `k` successive calls to `Next`, keeping only the iterator state. -/
def advance {L C} (s : storeSeriesSet L C) : Nat → storeSeriesSet L C
  | 0 => s
  | k + 1 => (advance s k).Next.1

end Cortex

namespace Cortex

/-! ### Runtime configuration manager (`pkg/util/runtimeconfig`).
The configuration value type is an abstract `α` (Go `interface` payloads
produced by the caller-supplied `Loader`).  A Go channel is modelled by
its buffer contents plus a flag saying whether a receiver is currently
blocked on it; a non-blocking send (`select` with a `default` branch)
hands the value to a ready receiver, else buffers it when capacity
remains, else drops it.  Channels are identified by the numeric order of
their creation, which models Go channel identity (`ch == listener`).
The `Loader`, the bucket client and the context are external
collaborators, so the fetch outcome and the decode function are
parameters of each operation that uses them. -/

/-- A Go channel of configuration values. -/
structure Chan (α : Type) where
  capacity : Nat
  buf : List α
  readyReceiver : Bool
  direct : List α
  closed : Bool
deriving Repr, DecidableEq

/-- A freshly made channel (`make(chan interface, buffer)`). -/
def newChan (α : Type) (buffer : Nat) : Chan α :=
  ⟨buffer, [], false, [], false⟩

/-- Non-blocking send: `select` with a send case and an empty `default`. -/
def trySend {α} (v : α) (c : Chan α) : Chan α :=
  if c.readyReceiver then
    { c with direct := c.direct ++ [v], readyReceiver := false }
  else if c.buf.length < c.capacity then
    { c with buf := c.buf ++ [v] }
  else c

/-- All values a channel has accepted (handed to receivers or buffered). -/
def received {α} (c : Chan α) : List α := c.direct ++ c.buf

/-- The `close(ch)` operation. -/
def closeChan {α} (c : Chan α) : Chan α := { c with closed := true }

/-- The manager `Config` struct; `StorageBackend` is the embedded
`StorageConfig.Backend` field, the only storage field `New` inspects.
The `Loader` function field is passed separately to the operations that
call it. -/
structure Config where
  ReloadPeriod : Nat
  LoadPath : String
  StorageBackend : String
deriving Repr, DecidableEq

/-- The default `bucket.Filesystem` backend name. -/
def filesystemBackend : String := "filesystem"

/-- The mutable state of a `Manager`.  `listeners` pairs each registered
channel with its creation index; `graveyard` keeps channels that have
been closed and handed back to their subscribers, so that closure can be
stated about them. -/
structure MgrState (α : Type) where
  cfg : Config
  nextId : Nat
  listeners : List (Nat × Chan α)
  graveyard : List (Nat × Chan α)
  config : Option α
  configLoadSuccess : Nat
  configHash : List (String × Nat)
deriving Repr, DecidableEq

/-- The zero-value manager produced by the `Manager` composite literal in
`New`: no config yet, gauges at zero, no listeners. -/
def initialManager (α : Type) (cfg : Config) : MgrState α :=
  ⟨cfg, 0, [], [], none, 0, []⟩

/-- Embedding of `New`: rejects an empty `LoadPath`, defaults the storage
backend to the filesystem, and returns the initial manager state. -/
def New (α : Type) (cfg : Config) : Except String (MgrState α) :=
  if cfg.LoadPath = "" then .error "LoadPath is empty"
  else
    let cfg2 := if cfg.StorageBackend = "" then
        { cfg with StorageBackend := filesystemBackend } else cfg
    .ok (initialManager α cfg2)

/-- Embedding of `GetConfig`: the current value, `none` for Go `nil`. -/
def GetConfig {α} (s : MgrState α) : Option α := s.config

/-- Embedding of `setConfig`. -/
def setConfig {α} (v : α) (s : MgrState α) : MgrState α :=
  { s with config := some v }

/-- Embedding of `CreateListenerChannel`: makes a channel with the given
buffer capacity and appends it to the registry; returns its identity. -/
def CreateListenerChannel {α} (buffer : Nat) (s : MgrState α) : MgrState α × Nat :=
  ({ s with nextId := s.nextId + 1,
            listeners := s.listeners ++ [(s.nextId, newChan α buffer)] },
   s.nextId)

/-- Scan of the listener list in `CloseListenerChannel`: removes the
first entry whose channel is the given one and returns it, closed. -/
def closeFirst {α} (id : Nat) :
    List (Nat × Chan α) → List (Nat × Chan α) × Option (Nat × Chan α)
  | [] => ([], none)
  | p :: rest =>
      if p.1 = id then (rest, some (p.1, closeChan p.2))
      else
        let r := closeFirst id rest
        (p :: r.1, r.2)

/-- Embedding of `CloseListenerChannel`: removes the first matching
channel from the registry and closes it; a miss is a no-op. -/
def CloseListenerChannel {α} (id : Nat) (s : MgrState α) : MgrState α :=
  match closeFirst id s.listeners with
  | (_, none) => s
  | (l, some pc) => { s with listeners := l, graveyard := s.graveyard ++ [pc] }

/-- Embedding of `callListeners`: one non-blocking send per registered
channel, in registration order. -/
def callListeners {α} (v : α) (s : MgrState α) : MgrState α :=
  { s with listeners := s.listeners.map (fun p => (p.1, trySend v p.2)) }

/-- Embedding of `stopping`: closes every registered channel and clears
the registry. -/
def stopping {α} (s : MgrState α) : MgrState α :=
  { s with listeners := [],
           graveyard := s.graveyard ++ s.listeners.map (fun p => (p.1, closeChan p.2)) }

/-- The `GaugeVec` update `WithLabelValues(label).Set(v)`. -/
def setLabelValue (label : String) (v : Nat) (vec : List (String × Nat)) :
    List (String × Nat) :=
  if vec.any (fun p => p.1 = label) then
    vec.map (fun p => if p.1 = label then (p.1, v) else p)
  else vec ++ [(label, v)]

/-- The `GaugeVec.Reset` call on the hash gauge. -/
def gaugeReset {α} (s : MgrState α) : MgrState α := { s with configHash := [] }

/-- Set one label of the hash gauge. -/
def gaugeSetLabel {α} (label : String) (v : Nat) (s : MgrState α) : MgrState α :=
  { s with configHash := setLabelValue label v s.configHash }

/-- The result of the bucket `Get` call: a read-closer whose `ReadAll`
and `Close` outcomes are externally determined. -/
structure ReadCloser where
  contents : Except String (List Nat)
  closeErr : Option String

/-- Embedding of `loadConfigFromBucket`: opens the object, reads it
whole, and propagates a `Close` failure as the returned error. -/
def loadConfigFromBucket (g : Except String ReadCloser) : Except String (List Nat) :=
  match g with
  | .error e => .error ("open file: " ++ e)
  | .ok rc =>
      match rc.contents with
      | .error e => .error ("read entire file: " ++ e)
      | .ok buf =>
          match rc.closeErr with
          | some e => .error e
          | none => .ok buf

/-- Embedding of `loadConfig`, parameterized by the fetched bytes (the
`loadConfigFromBucket` outcome) and the caller-supplied `Loader`.
Returns the successor state and the Go error value. -/
def loadConfig {α} (fetched : Except String (List Nat))
    (loader : List Nat → Except String α) (s : MgrState α) :
    MgrState α × Option String :=
  match fetched with
  | .error e => ({ s with configLoadSuccess := 0 }, some ("read file: " ++ e))
  | .ok buf =>
      let hash := sha256hex buf
      match loader buf with
      | .error e => ({ s with configLoadSuccess := 0 }, some ("load file: " ++ e))
      | .ok cfg =>
          let s1 := { s with configLoadSuccess := 1 }
          let s2 := setConfig cfg s1
          let s3 := callListeners cfg s2
          (gaugeSetLabel hash 1 (gaugeReset s3), none)

/-- Embedding of `starting`: empty `LoadPath` succeeds at once; else the
bucket client is built and one synchronous `loadConfig` runs, its error
wrapped and escalated. -/
def starting {α} (factory : Except String Unit)
    (fetched : Except String (List Nat)) (loader : List Nat → Except String α)
    (s : MgrState α) : MgrState α × Option String :=
  if s.cfg.LoadPath = "" then (s, none)
  else
    match factory with
    | .error e => (s, some e)
    | .ok _ =>
        let r := loadConfig fetched loader s
        (r.1, r.2.map (fun e => "failed to load runtime config: " ++ e))

/-- One externally visible event of the run loop: a ticker tick (with the
fetch outcome the bucket would produce for it) or context cancellation. -/
inductive LoopEvent where
  | tick (fetched : Except String (List Nat))
  | cancelled
deriving Repr

/-- The ticking body of `loop`: each tick runs `loadConfig` and the loop
continues whether or not it errored; cancellation returns. -/
def loopTicks {α} (loader : List Nat → Except String α) :
    List LoopEvent → MgrState α → MgrState α
  | [], s => s
  | .cancelled :: _, s => s
  | .tick f :: rest, s => loopTicks loader rest (loadConfig f loader s).1

/-- Embedding of `loop`: with an empty `LoadPath` it only waits for
cancellation (no ticker is created, no fetch happens); the returned
error value is nil on every path. -/
def loop {α} (loader : List Nat → Except String α) (events : List LoopEvent)
    (s : MgrState α) : MgrState α × Option String :=
  if s.cfg.LoadPath = "" then (s, none)
  else (loopTicks loader events s, none)

/-! ### Side-effect trace of one `loadConfig` call, used to state the
order of the gauge update, the Config Cell swap, the fan-out and the
hash-gauge rewrite within a cycle. -/

/-- One observable side effect of `loadConfig`, in program order. -/
inductive MgrAction (α : Type) where
  | setSuccessGauge (v : Nat)
  | setCell (v : α)
  | publish (v : α)
  | resetHashGauge
  | setHashLabel (label : String)
deriving Repr

/-- Interpretation of one action on the manager state. -/
def applyAction {α} (s : MgrState α) : MgrAction α → MgrState α
  | .setSuccessGauge v => { s with configLoadSuccess := v }
  | .setCell v => setConfig v s
  | .publish v => callListeners v s
  | .resetHashGauge => gaugeReset s
  | .setHashLabel label => gaugeSetLabel label 1 s

/-- Interpretation of an action sequence. -/
def applyActions {α} (s : MgrState α) (acts : List (MgrAction α)) : MgrState α :=
  acts.foldl applyAction s

/-- The side effects of `loadConfig` in the order the source performs
them (gauge write, cell swap, fan-out, hash-gauge reset, hash label). -/
def loadConfigTrace {α} (fetched : Except String (List Nat))
    (loader : List Nat → Except String α) : List (MgrAction α) :=
  match fetched with
  | .error _ => [.setSuccessGauge 0]
  | .ok buf =>
      match loader buf with
      | .error _ => [.setSuccessGauge 0]
      | .ok cfg =>
          [.setSuccessGauge 1, .setCell cfg, .publish cfg,
           .resetHashGauge, .setHashLabel (sha256hex buf)]

end Cortex

namespace Cortex

/-! ### Supporting lemmas -/

/-- A ready receiver takes the value directly; the buffer is untouched. -/
theorem trySend_ready {α : Type} (v : α) (c : Chan α) (h : c.readyReceiver = true) :
    (trySend v c).direct = c.direct ++ [v] ∧ (trySend v c).buf = c.buf := by
  simp [trySend, h]

/-- With no ready receiver but free buffer capacity the value is buffered. -/
theorem trySend_buffered {α : Type} (v : α) (c : Chan α)
    (h1 : c.readyReceiver = false) (h2 : c.buf.length < c.capacity) :
    (trySend v c).buf = c.buf ++ [v] ∧ (trySend v c).direct = c.direct := by
  simp [trySend, h1, h2]

/-- With no ready receiver and a full buffer the send is dropped whole. -/
theorem trySend_dropped {α : Type} (v : α) (c : Chan α)
    (h1 : c.readyReceiver = false) (h2 : ¬ c.buf.length < c.capacity) :
    trySend v c = c := by
  simp [trySend, h1, h2]

/-- A non-blocking send never changes the closed flag. -/
theorem trySend_closed {α : Type} (v : α) (c : Chan α) :
    (trySend v c).closed = c.closed := by
  by_cases h1 : c.readyReceiver <;> by_cases h2 : c.buf.length < c.capacity <;>
    simp [trySend, h1, h2]

/-- A context whose chain never bound the private blocks key has no value
under it. -/
theorem value_none_of_neverInjected {α : Type} (ctx : GoCtx α)
    (h : neverInjected ctx = true) : ctx.value blockCtxKey = none := by
  induction ctx with
  | background => rfl
  | withValue p k vv ih =>
      simp only [neverInjected, Bool.and_eq_true, decide_eq_true_eq] at h
      simp [GoCtx.value, h.1, ih h.2]

/-! ### Claims -/

/-- C1 counterexample: with an empty LoadPath, `New` does not construct a
manager — it fails with the error "LoadPath is empty", contradicting the
claim that construction succeeds. -/
theorem C1_new_rejects_empty_path :
    New Unit { ReloadPeriod := 10, LoadPath := "", StorageBackend := "filesystem" }
      = Except.error "LoadPath is empty" := rfl

/-- C1 (amended): with an empty LoadPath, `New` refuses to construct the
manager; nevertheless the lifecycle hooks treat an empty path as a
deliberate no-op: `starting` reports success without performing any
fetch, the run loop ignores every tick and exits cleanly (nil) on
cancellation leaving the state unchanged, and the freshly initialized
manager state's `GetConfig` returns the absent value. -/
theorem C1_empty_load_path {α : Type} (s : MgrState α) (h : s.cfg.LoadPath = "")
    (factory : Except String Unit) (fetched : Except String (List Nat))
    (loader : List Nat → Except String α) (events : List LoopEvent) :
    New α s.cfg = .error "LoadPath is empty"
    ∧ starting factory fetched loader s = (s, none)
    ∧ loop loader events s = (s, none)
    ∧ GetConfig (initialManager α s.cfg) = none := by
  refine ⟨?_, ?_, ?_, rfl⟩ <;> simp [New, starting, loop, h]

/-- C1 witness at a concrete manager state with empty LoadPath. -/
theorem C1_empty_load_path_witness :
    New Unit (initialManager Unit ⟨10, "", ""⟩).cfg = .error "LoadPath is empty"
    ∧ starting (.ok ()) (.ok [1, 2]) (fun _ => .ok ())
        (initialManager Unit ⟨10, "", ""⟩) = (initialManager Unit ⟨10, "", ""⟩, none)
    ∧ loop (fun _ => .ok ()) [.tick (.ok [1, 2]), .cancelled]
        (initialManager Unit ⟨10, "", ""⟩) = (initialManager Unit ⟨10, "", ""⟩, none)
    ∧ GetConfig (initialManager Unit (initialManager Unit ⟨10, "", ""⟩).cfg) = none :=
  C1_empty_load_path (initialManager Unit ⟨10, "", ""⟩) rfl (.ok ()) (.ok [1, 2])
    (fun _ => .ok ()) [.tick (.ok [1, 2]), .cancelled]

/-- C2: a reload cycle whose fetch fails or whose decode fails returns an
error, drops the success gauge to 0, and leaves the Config Cell, the
listener registry, the closed channels and the hash gauge untouched;
the run loop keeps going with the resulting state instead of stopping. -/
theorem C2_error_cycle_contained {α : Type} (s : MgrState α)
    (fetched : Except String (List Nat)) (loader : List Nat → Except String α)
    (h : (∃ e, fetched = .error e)
         ∨ ∃ buf e, fetched = .ok buf ∧ loader buf = .error e) :
    (loadConfig fetched loader s).2.isSome = true
    ∧ (loadConfig fetched loader s).1.configLoadSuccess = 0
    ∧ GetConfig (loadConfig fetched loader s).1 = GetConfig s
    ∧ (loadConfig fetched loader s).1.listeners = s.listeners
    ∧ (loadConfig fetched loader s).1.graveyard = s.graveyard
    ∧ (loadConfig fetched loader s).1.configHash = s.configHash
    ∧ ∀ rest, loopTicks loader (LoopEvent.tick fetched :: rest) s
        = loopTicks loader rest (loadConfig fetched loader s).1 := by
  rcases h with ⟨e, rfl⟩ | ⟨buf, e, rfl, hl⟩
  · exact ⟨rfl, rfl, rfl, rfl, rfl, rfl, fun rest => rfl⟩
  · refine ⟨?_, ?_, ?_, ?_, ?_, ?_, fun rest => rfl⟩ <;>
      simp [loadConfig, GetConfig, hl]

/-- C2 witness: a failed fetch at a concrete state with one listener. -/
theorem C2_error_cycle_contained_witness :
    (loadConfig (α := Nat) (.error "boom") (fun _ => .ok 7)
        (initialManager Nat ⟨10, "f", "filesystem"⟩)).2.isSome = true
    ∧ (loadConfig (α := Nat) (.error "boom") (fun _ => .ok 7)
        (initialManager Nat ⟨10, "f", "filesystem"⟩)).1.configLoadSuccess = 0
    ∧ GetConfig (loadConfig (α := Nat) (.error "boom") (fun _ => .ok 7)
        (initialManager Nat ⟨10, "f", "filesystem"⟩)).1
        = GetConfig (initialManager Nat ⟨10, "f", "filesystem"⟩)
    ∧ (loadConfig (α := Nat) (.error "boom") (fun _ => .ok 7)
        (initialManager Nat ⟨10, "f", "filesystem"⟩)).1.listeners
        = (initialManager Nat ⟨10, "f", "filesystem"⟩).listeners
    ∧ (loadConfig (α := Nat) (.error "boom") (fun _ => .ok 7)
        (initialManager Nat ⟨10, "f", "filesystem"⟩)).1.graveyard
        = (initialManager Nat ⟨10, "f", "filesystem"⟩).graveyard
    ∧ (loadConfig (α := Nat) (.error "boom") (fun _ => .ok 7)
        (initialManager Nat ⟨10, "f", "filesystem"⟩)).1.configHash
        = (initialManager Nat ⟨10, "f", "filesystem"⟩).configHash
    ∧ ∀ rest, loopTicks (fun _ => .ok 7) (LoopEvent.tick (.error "boom") :: rest)
        (initialManager Nat ⟨10, "f", "filesystem"⟩)
        = loopTicks (fun _ => .ok 7) rest
            (loadConfig (α := Nat) (.error "boom") (fun _ => .ok 7)
              (initialManager Nat ⟨10, "f", "filesystem"⟩)).1 :=
  C2_error_cycle_contained (initialManager Nat ⟨10, "f", "filesystem"⟩)
    (.error "boom") (fun _ => .ok 7) (Or.inl ⟨"boom", rfl⟩)

/-- C3: on a fully successful cycle the side effects happen in exactly
this order: success gauge to 1, Config Cell swap, listener fan-out, hash
gauge reset, new hash label set to 1.  The trace interpretation agrees
with `loadConfig`, and at the moment the publish action runs (after the
first two actions) `GetConfig` already returns the cycle's value. -/
theorem C3_success_effect_order {α : Type} (fetched : Except String (List Nat))
    (loader : List Nat → Except String α) (buf : List Nat) (v : α)
    (hf : fetched = .ok buf) (hl : loader buf = .ok v) :
    loadConfigTrace fetched loader
      = [MgrAction.setSuccessGauge 1, .setCell v, .publish v,
         .resetHashGauge, .setHashLabel (sha256hex buf)]
    ∧ (∀ s : MgrState α, applyActions s (loadConfigTrace fetched loader)
        = (loadConfig fetched loader s).1)
    ∧ (∀ s : MgrState α,
        GetConfig (applyActions s [MgrAction.setSuccessGauge 1, .setCell v])
          = some v) := by
  subst hf
  refine ⟨by simp [loadConfigTrace, hl], fun s => ?_, fun s => rfl⟩
  simp [loadConfigTrace, loadConfig, applyActions, applyAction, hl]

/-- C3 witness at concrete bytes, loader and state. -/
theorem C3_success_effect_order_witness :
    loadConfigTrace (α := Nat) (.ok [97]) (fun _ => .ok 7)
      = [MgrAction.setSuccessGauge 1, .setCell 7, .publish 7,
         .resetHashGauge, .setHashLabel (sha256hex [97])]
    ∧ (∀ s : MgrState Nat, applyActions s (loadConfigTrace (.ok [97]) (fun _ => .ok 7))
        = (loadConfig (.ok [97]) (fun _ => .ok 7) s).1)
    ∧ (∀ s : MgrState Nat,
        GetConfig (applyActions s [MgrAction.setSuccessGauge 1, .setCell 7])
          = some 7) :=
  C3_success_effect_order (.ok [97]) (fun _ => .ok 7) [97] 7 rfl rfl

/-- C9: extracting after injecting returns exactly the injected block
list with the found flag true (even for an empty list, since the slice
is stored as a typed, non-nil interface value), and extracting from a
context into which no blocks were ever injected yields the nil slice and
false. -/
theorem C9_extract_inverts_inject {α : Type} (ctx ctx2 : GoCtx α) (bs : List α)
    (h : neverInjected ctx2 = true) :
    ExtractBlocksFromContext (InjectBlocksIntoContext ctx bs) = (bs, true)
    ∧ ExtractBlocksFromContext ctx2 = ([], false) := by
  constructor
  · simp [ExtractBlocksFromContext, InjectBlocksIntoContext, GoCtx.value]
  · simp [ExtractBlocksFromContext, value_none_of_neverInjected ctx2 h]

/-- C9 witness: a two-layer foreign context and a concrete block list. -/
theorem C9_extract_inverts_inject_witness :
    ExtractBlocksFromContext
        (InjectBlocksIntoContext (GoCtx.background (α := Nat)) [5, 6]) = ([5, 6], true)
    ∧ ExtractBlocksFromContext
        (GoCtx.withValue (GoCtx.background (α := Nat)) 3 [9]) = ([], false) :=
  C9_extract_inverts_inject GoCtx.background
    (GoCtx.withValue GoCtx.background 3 [9]) [5, 6] (by decide)

end Cortex


namespace Cortex

/-! ### Listener-registry lemmas -/

/-- Removing a missing channel scans the whole list and changes nothing. -/
theorem closeFirst_not_mem {α : Type} (id : Nat) (l : List (Nat × Chan α))
    (h : id ∉ l.map Prod.fst) : closeFirst id l = (l, none) := by
  induction l with
  | nil => rfl
  | cons p rest ih =>
      simp only [List.map_cons, List.mem_cons, not_or] at h
      simp [closeFirst, Ne.symm h.1, ih h.2]

/-- A scan that found no match also left the list unchanged. -/
theorem closeFirst_none {α : Type} (id : Nat) (l : List (Nat × Chan α))
    (h : (closeFirst id l).2 = none) : (closeFirst id l).1 = l := by
  induction l with
  | nil => rfl
  | cons q rest ih =>
      by_cases hq : q.1 = id
      · simp [closeFirst, hq] at h
      · simp only [closeFirst, hq, if_false] at h ⊢
        simp only [List.cons.injEq, true_and]
        exact ih h

/-- After removal under distinct identities, the identity is gone. -/
theorem closeFirst_removed {α : Type} (id : Nat) (l : List (Nat × Chan α))
    (h : (l.map Prod.fst).Nodup) : id ∉ ((closeFirst id l).1.map Prod.fst) := by
  induction l with
  | nil => simp [closeFirst]
  | cons p rest ih =>
      simp only [List.map_cons, List.nodup_cons] at h
      by_cases hp : p.1 = id
      · subst hp
        simp [closeFirst, h.1]
      · simp [closeFirst, hp, ih h.2, Ne.symm hp]

/-- Entries with a different identity survive the removal scan. -/
theorem closeFirst_mem_of_ne {α : Type} (id : Nat) (l : List (Nat × Chan α))
    (p : Nat × Chan α) (hp : p ∈ l) (hne : p.1 ≠ id) :
    p ∈ (closeFirst id l).1 := by
  induction l with
  | nil => cases hp
  | cons q rest ih =>
      rcases List.mem_cons.mp hp with rfl | hmem
      · simp [closeFirst, hne]
      · by_cases hq : q.1 = id
        · simp [closeFirst, hq, hmem]
        · simp [closeFirst, hq, ih hmem]

/-- The surviving registry entries form a sublist of the original. -/
theorem closeFirst_sublist {α : Type} (id : Nat) (l : List (Nat × Chan α)) :
    (closeFirst id l).1.Sublist l := by
  induction l with
  | nil => simp [closeFirst]
  | cons q rest ih =>
      by_cases hq : q.1 = id
      · simp [closeFirst, hq]
      · simpa [closeFirst, hq] using ih

/-! ### Reachable manager states keep registered channels open and their
identities distinct; this justifies the hypotheses of the unsubscribe and
shutdown claims. -/

/-- Invariant of the listener registry: identities are below the
allocation counter, registered channels are open, identities distinct. -/
def GoodListeners {α : Type} (s : MgrState α) : Prop :=
  (∀ p, p ∈ s.listeners → p.1 < s.nextId ∧ p.2.closed = false)
  ∧ (s.listeners.map Prod.fst).Nodup

/-- States a manager can evolve into through subscribe, unsubscribe and
reload cycles. -/
inductive MgrEvolve {α : Type} (s : MgrState α) : MgrState α → Prop where
  | refl : MgrEvolve s s
  | create (t : MgrState α) (buffer : Nat) (h : MgrEvolve s t) :
      MgrEvolve s (CreateListenerChannel buffer t).1
  | unsubscribe (t : MgrState α) (id : Nat) (h : MgrEvolve s t) :
      MgrEvolve s (CloseListenerChannel id t)
  | reload (t : MgrState α) (fetched : Except String (List Nat))
      (loader : List Nat → Except String α) (h : MgrEvolve s t) :
      MgrEvolve s (loadConfig fetched loader t).1

/-- Subscribing preserves the registry invariant. -/
theorem goodListeners_create {α : Type} (s : MgrState α) (buffer : Nat)
    (h : GoodListeners s) : GoodListeners (CreateListenerChannel buffer s).1 := by
  obtain ⟨hb, hnd⟩ := h
  constructor
  · intro p hp
    simp only [CreateListenerChannel, List.mem_append, List.mem_singleton] at hp
    rcases hp with hp | rfl
    · exact ⟨Nat.lt_succ_of_lt (hb p hp).1, (hb p hp).2⟩
    · exact ⟨Nat.lt_succ_self _, rfl⟩
  · have hx : s.nextId ∉ s.listeners.map Prod.fst := by
      intro hmem
      rcases List.mem_map.mp hmem with ⟨p, hp, hfst⟩
      have := (hb p hp).1
      omega
    simp only [CreateListenerChannel, List.map_append, List.map_cons, List.map_nil]
    refine List.Nodup.append hnd (List.nodup_singleton _) ?_
    intro a ha hb2
    rw [List.mem_singleton] at hb2
    subst hb2
    exact hx ha

/-- Unsubscribing preserves the registry invariant. -/
theorem goodListeners_close {α : Type} (s : MgrState α) (id : Nat)
    (h : GoodListeners s) : GoodListeners (CloseListenerChannel id s) := by
  obtain ⟨hb, hnd⟩ := h
  have hsub := closeFirst_sublist id s.listeners
  cases hc : closeFirst id s.listeners with
  | mk l o =>
      rw [hc] at hsub
      cases o with
      | none => simpa [CloseListenerChannel, hc] using ⟨hb, hnd⟩
      | some pc =>
          simp only [CloseListenerChannel, hc]
          exact ⟨fun p hp => hb p (hsub.mem hp), hnd.sublist (hsub.map Prod.fst)⟩

/-- A reload cycle preserves the registry invariant. -/
theorem goodListeners_load {α : Type} (s : MgrState α)
    (fetched : Except String (List Nat)) (loader : List Nat → Except String α)
    (h : GoodListeners s) : GoodListeners (loadConfig fetched loader s).1 := by
  obtain ⟨hb, hnd⟩ := h
  cases fetched with
  | error e => exact ⟨hb, hnd⟩
  | ok buf =>
      cases hl : loader buf with
      | error e => simp only [loadConfig, hl]; exact ⟨hb, hnd⟩
      | ok v =>
          simp only [loadConfig, hl, gaugeSetLabel, gaugeReset, callListeners,
            setConfig]
          constructor
          · intro p hp
            rcases List.mem_map.mp hp with ⟨q, hq, rfl⟩
            exact ⟨(hb q hq).1, (trySend_closed v q.2).trans (hb q hq).2⟩
          · have heq : (s.listeners.map (fun p => (p.1, trySend v p.2))).map
                Prod.fst = s.listeners.map Prod.fst := by
              simp [List.map_map, Function.comp]
            rw [heq]
            exact hnd

/-- Every state reachable from a fresh manager satisfies the registry
invariant: in particular registered channels are open and identities are
pairwise distinct. -/
theorem evolve_goodListeners {α : Type} (cfg : Config) (t : MgrState α)
    (h : MgrEvolve (initialManager α cfg) t) : GoodListeners t := by
  induction h with
  | refl => exact ⟨fun p hp => absurd hp (List.not_mem_nil p), List.nodup_nil⟩
  | create t buffer h ih => exact goodListeners_create t buffer ih
  | unsubscribe t id h ih => exact goodListeners_close t id ih
  | reload t fetched loader h ih => exact goodListeners_load t fetched loader ih

end Cortex

namespace Cortex

/-- C4: publish is a total function of the state (it never waits): every
registered channel gets exactly one non-blocking send, in registration
order; a channel with a ready receiver hands the value over directly, a
channel with free buffer capacity buffers it, and a channel with neither
is left completely unchanged — the value is dropped for it. -/
theorem C4_publish_never_blocks {α : Type} (s : MgrState α) (v : α) :
    (callListeners v s).listeners
      = s.listeners.map (fun p => (p.1, trySend v p.2))
    ∧ (callListeners v s).graveyard = s.graveyard
    ∧ GetConfig (callListeners v s) = GetConfig s
    ∧ ∀ p, p ∈ s.listeners →
        ((p.2.readyReceiver = true →
            (trySend v p.2).direct = p.2.direct ++ [v]
            ∧ (trySend v p.2).buf = p.2.buf)
         ∧ (p.2.readyReceiver = false → p.2.buf.length < p.2.capacity →
            (trySend v p.2).buf = p.2.buf ++ [v]
            ∧ (trySend v p.2).direct = p.2.direct)
         ∧ (p.2.readyReceiver = false → ¬ p.2.buf.length < p.2.capacity →
            trySend v p.2 = p.2)) := by
  refine ⟨rfl, rfl, rfl, fun p _ => ⟨?_, ?_, ?_⟩⟩
  · exact fun h => trySend_ready v p.2 h
  · exact fun h1 h2 => trySend_buffered v p.2 h1 h2
  · exact fun h1 h2 => trySend_dropped v p.2 h1 h2

/-- C4 witness: one channel with spare capacity takes the value, one full
unbuffered channel without a receiver drops it. -/
theorem C4_publish_never_blocks_witness :
    (callListeners 5 (MgrState.mk (α := Nat) ⟨10, "f", "filesystem"⟩ 2
        [(0, ⟨1, [], false, [], false⟩), (1, ⟨0, [], false, [], false⟩)]
        [] none 1 [])).listeners
      = ([(0, ⟨1, [], false, [], false⟩), (1, ⟨0, [], false, [], false⟩)]
          : List (Nat × Chan Nat)).map (fun p => (p.1, trySend 5 p.2))
    ∧ (trySend 5 (⟨1, [], false, [], false⟩ : Chan Nat)).buf = [] ++ [5]
    ∧ trySend 5 (⟨0, [], false, [], false⟩ : Chan Nat)
        = ⟨0, [], false, [], false⟩ := by
  have h := C4_publish_never_blocks (MgrState.mk (α := Nat) ⟨10, "f", "filesystem"⟩ 2
    [(0, ⟨1, [], false, [], false⟩), (1, ⟨0, [], false, [], false⟩)]
    [] none 1 []) 5
  exact ⟨h.1,
    ((h.2.2.2 (0, ⟨1, [], false, [], false⟩) (by simp)).2.1 rfl (by decide)).1,
    (h.2.2.2 (1, ⟨0, [], false, [], false⟩) (by simp)).2.2 rfl (by decide)⟩

/-- C5: shutdown empties the registry, and every channel that was still
registered (created and not yet unsubscribed) moves to the closed set
with its closed flag newly set — open before, closed after, hence closed
exactly once; publishing against the stopped state changes nothing, so
no value is ever sent to those channels afterwards. -/
theorem C5_stop_closes_all {α : Type} (s : MgrState α) (v : α)
    (hopen : ∀ p, p ∈ s.listeners → p.2.closed = false) :
    (stopping s).listeners = []
    ∧ (∀ p, p ∈ s.listeners →
        (p.1, closeChan p.2) ∈ (stopping s).graveyard
        ∧ p.2.closed = false ∧ (closeChan p.2).closed = true)
    ∧ callListeners v (stopping s) = stopping s := by
  refine ⟨rfl, fun p hp => ⟨?_, hopen p hp, rfl⟩, rfl⟩
  simp only [stopping, List.mem_append]
  exact Or.inr (List.mem_map.mpr ⟨p, hp, rfl⟩)

/-- C5 witness: stopping a state with two registered open channels. -/
theorem C5_stop_closes_all_witness :
    (stopping (MgrState.mk (α := Nat) ⟨10, "f", "filesystem"⟩ 2
        [(0, ⟨1, [7], false, [], false⟩), (1, ⟨0, [], true, [], false⟩)]
        [] none 1 [])).listeners = []
    ∧ ((0 : Nat), closeChan (⟨1, [7], false, [], false⟩ : Chan Nat))
        ∈ (stopping (MgrState.mk (α := Nat) ⟨10, "f", "filesystem"⟩ 2
            [(0, ⟨1, [7], false, [], false⟩), (1, ⟨0, [], true, [], false⟩)]
            [] none 1 [])).graveyard
    ∧ (closeChan (⟨1, [7], false, [], false⟩ : Chan Nat)).closed = true
    ∧ callListeners 9 (stopping (MgrState.mk (α := Nat) ⟨10, "f", "filesystem"⟩ 2
          [(0, ⟨1, [7], false, [], false⟩), (1, ⟨0, [], true, [], false⟩)]
          [] none 1 []))
        = stopping (MgrState.mk (α := Nat) ⟨10, "f", "filesystem"⟩ 2
            [(0, ⟨1, [7], false, [], false⟩), (1, ⟨0, [], true, [], false⟩)]
            [] none 1 []) := by
  have h := C5_stop_closes_all (MgrState.mk (α := Nat) ⟨10, "f", "filesystem"⟩ 2
    [(0, ⟨1, [7], false, [], false⟩), (1, ⟨0, [], true, [], false⟩)]
    [] none 1 []) 9 (by intro p hp; fin_cases hp <;> rfl)
  exact ⟨h.1, (h.2.1 (0, ⟨1, [7], false, [], false⟩) (by simp)).1,
    (h.2.1 (0, ⟨1, [7], false, [], false⟩) (by simp)).2.2, h.2.2⟩

/-- C6: unsubscribing is total and idempotent: an identity not in the
registry (in particular, one already removed) is a no-op, repeating the
call changes nothing further, and a call only ever removes the matching
entry — every other registered channel survives untouched. -/
theorem C6_unsubscribe_idempotent {α : Type} (s : MgrState α) (id : Nat)
    (hnd : (s.listeners.map Prod.fst).Nodup) :
    (id ∉ s.listeners.map Prod.fst → CloseListenerChannel id s = s)
    ∧ CloseListenerChannel id (CloseListenerChannel id s)
        = CloseListenerChannel id s
    ∧ (∀ p, p ∈ s.listeners → p.1 ≠ id →
        p ∈ (CloseListenerChannel id s).listeners) := by
  have hnone : ∀ t : MgrState α, id ∉ t.listeners.map Prod.fst →
      CloseListenerChannel id t = t := by
    intro t hno
    unfold CloseListenerChannel
    rw [closeFirst_not_mem id t.listeners hno]
  refine ⟨hnone s, ?_, fun p hp hne => ?_⟩
  · have hrm := closeFirst_removed id s.listeners hnd
    apply hnone
    cases hc : closeFirst id s.listeners with
    | mk l o =>
        rw [hc] at hrm
        cases o with
        | none =>
            have hl : (closeFirst id s.listeners).1 = s.listeners :=
              closeFirst_none id s.listeners (by rw [hc])
            rw [hc] at hl
            subst hl
            simpa [CloseListenerChannel, hc] using hrm
        | some pc => simpa [CloseListenerChannel, hc] using hrm
  · have hkeep := closeFirst_mem_of_ne id s.listeners p hp hne
    cases hc : closeFirst id s.listeners with
    | mk l o =>
        rw [hc] at hkeep
        cases o with
        | none => simpa [CloseListenerChannel, hc] using hp
        | some pc => simpa [CloseListenerChannel, hc] using hkeep

/-- C6 witness: removing channel 1 twice from a two-channel registry,
and removing the unknown identity 5, at concrete states. -/
theorem C6_unsubscribe_idempotent_witness :
    ((5 : Nat) ∉ ([(0, ⟨1, [], false, [], false⟩), (1, ⟨0, [], false, [], false⟩)]
        : List (Nat × Chan Nat)).map Prod.fst →
      CloseListenerChannel 5 (MgrState.mk (α := Nat) ⟨10, "f", "filesystem"⟩ 2
        [(0, ⟨1, [], false, [], false⟩), (1, ⟨0, [], false, [], false⟩)]
        [] none 1 [])
      = MgrState.mk (α := Nat) ⟨10, "f", "filesystem"⟩ 2
        [(0, ⟨1, [], false, [], false⟩), (1, ⟨0, [], false, [], false⟩)]
        [] none 1 [])
    ∧ CloseListenerChannel 1 (CloseListenerChannel 1
        (MgrState.mk (α := Nat) ⟨10, "f", "filesystem"⟩ 2
          [(0, ⟨1, [], false, [], false⟩), (1, ⟨0, [], false, [], false⟩)]
          [] none 1 []))
      = CloseListenerChannel 1 (MgrState.mk (α := Nat) ⟨10, "f", "filesystem"⟩ 2
          [(0, ⟨1, [], false, [], false⟩), (1, ⟨0, [], false, [], false⟩)]
          [] none 1 [])
    ∧ ((0 : Nat), (⟨1, [], false, [], false⟩ : Chan Nat))
        ∈ (CloseListenerChannel 1 (MgrState.mk (α := Nat) ⟨10, "f", "filesystem"⟩ 2
            [(0, ⟨1, [], false, [], false⟩), (1, ⟨0, [], false, [], false⟩)]
            [] none 1 [])).listeners := by
  have h := C6_unsubscribe_idempotent (MgrState.mk (α := Nat)
    ⟨10, "f", "filesystem"⟩ 2
    [(0, ⟨1, [], false, [], false⟩), (1, ⟨0, [], false, [], false⟩)]
    [] none 1 []) 1 (by decide)
  have h5 := C6_unsubscribe_idempotent (MgrState.mk (α := Nat)
    ⟨10, "f", "filesystem"⟩ 2
    [(0, ⟨1, [], false, [], false⟩), (1, ⟨0, [], false, [], false⟩)]
    [] none 1 []) 5 (by decide)
  exact ⟨fun hn => h5.1 hn, h.2.1,
    h.2.2 (0, ⟨1, [], false, [], false⟩) (by simp) (by decide)⟩

end Cortex

namespace Cortex

/-! ### Remaining claims -/

/-- C7: a successful cycle whose bytes match the previous cycle's hash is
not short-circuited: the decoder output still replaces the Config Cell,
the success gauge is set, every listener still gets a non-blocking send
(a listener with free capacity and no waiting receiver buffers the new
value), and the hash gauge ends at the same single label — no comparison
with the previous hash ever skips the work. -/
theorem C7_no_dedup_on_same_bytes {α : Type} (s : MgrState α) (buf : List Nat)
    (loader : List Nat → Except String α) (v : α)
    (hprev : s.configHash = [(sha256hex buf, 1)])
    (hl : loader buf = .ok v) :
    (loadConfig (.ok buf) loader s).1.config = some v
    ∧ (loadConfig (.ok buf) loader s).1.configLoadSuccess = 1
    ∧ (loadConfig (.ok buf) loader s).1.listeners
        = s.listeners.map (fun p => (p.1, trySend v p.2))
    ∧ (∀ p, p ∈ s.listeners → p.2.readyReceiver = false →
        p.2.buf.length < p.2.capacity →
        (trySend v p.2).buf = p.2.buf ++ [v])
    ∧ (loadConfig (.ok buf) loader s).1.configHash = [(sha256hex buf, 1)]
    ∧ (loadConfig (.ok buf) loader s).2 = none := by
  refine ⟨?_, ?_, ?_, fun p hp h1 h2 => (trySend_buffered v p.2 h1 h2).1, ?_, ?_⟩ <;>
    simp [loadConfig, hl, gaugeSetLabel, gaugeReset, callListeners, setConfig,
      setLabelValue]

/-- C7 witness: a state whose hash gauge already carries the hash of the
incoming bytes, with one buffered listener. -/
theorem C7_no_dedup_on_same_bytes_witness :
    (loadConfig (.ok [97, 98]) (fun _ => (.ok 3 : Except String Nat))
        (MgrState.mk (α := Nat) ⟨10, "f", "filesystem"⟩ 1
          [(0, ⟨1, [], false, [], false⟩)] [] none 1
          [(sha256hex [97, 98], 1)])).1.config = some 3
    ∧ (loadConfig (.ok [97, 98]) (fun _ => (.ok 3 : Except String Nat))
        (MgrState.mk (α := Nat) ⟨10, "f", "filesystem"⟩ 1
          [(0, ⟨1, [], false, [], false⟩)] [] none 1
          [(sha256hex [97, 98], 1)])).1.listeners
        = ([(0, ⟨1, [], false, [], false⟩)] : List (Nat × Chan Nat)).map
            (fun p => (p.1, trySend 3 p.2))
    ∧ (trySend 3 (⟨1, [], false, [], false⟩ : Chan Nat)).buf = [] ++ [3]
    ∧ (loadConfig (.ok [97, 98]) (fun _ => (.ok 3 : Except String Nat))
        (MgrState.mk (α := Nat) ⟨10, "f", "filesystem"⟩ 1
          [(0, ⟨1, [], false, [], false⟩)] [] none 1
          [(sha256hex [97, 98], 1)])).1.configHash = [(sha256hex [97, 98], 1)] := by
  have h := C7_no_dedup_on_same_bytes (MgrState.mk (α := Nat)
    ⟨10, "f", "filesystem"⟩ 1 [(0, ⟨1, [], false, [], false⟩)] [] none 1
    [(sha256hex [97, 98], 1)]) [97, 98] (fun _ => .ok 3) 3 rfl rfl
  exact ⟨h.1, h.2.2.1,
    h.2.2.2.1 (0, ⟨1, [], false, [], false⟩) (by simp) rfl (by decide),
    h.2.2.2.2.1⟩

/-- C8: after a successful cycle the hash gauge holds exactly one label
with value 1, the lowercase hex SHA-256 of the fetched bytes, every prior
label having been reset; a failed cycle leaves the hash gauge exactly as
it was. -/
theorem C8_hash_gauge_single_label {α : Type} (s : MgrState α)
    (fetched : Except String (List Nat)) (loader : List Nat → Except String α) :
    (∀ buf v, fetched = .ok buf → loader buf = .ok v →
        (loadConfig fetched loader s).1.configHash = [(sha256hex buf, 1)])
    ∧ ((loadConfig fetched loader s).2.isSome = true →
        (loadConfig fetched loader s).1.configHash = s.configHash) := by
  constructor
  · rintro buf v rfl hl
    simp [loadConfig, hl, gaugeSetLabel, gaugeReset, setLabelValue,
      callListeners, setConfig]
  · intro herr
    cases fetched with
    | error e => rfl
    | ok buf =>
        cases hl : loader buf with
        | error e => simp [loadConfig, hl]
        | ok v => simp [loadConfig, hl] at herr

/-- C8 witness: one successful cycle over concrete bytes, one failed
fetch, at a concrete state carrying an old hash label. -/
theorem C8_hash_gauge_single_label_witness :
    (loadConfig (.ok [97]) (fun _ => (.ok 4 : Except String Nat))
        (MgrState.mk (α := Nat) ⟨10, "f", "filesystem"⟩ 0 [] [] none 1
          [("oldhash", 1)])).1.configHash = [(sha256hex [97], 1)]
    ∧ (loadConfig (.error "gone") (fun _ => (.ok 4 : Except String Nat))
        (MgrState.mk (α := Nat) ⟨10, "f", "filesystem"⟩ 0 [] [] none 1
          [("oldhash", 1)])).1.configHash
        = (MgrState.mk (α := Nat) ⟨10, "f", "filesystem"⟩ 0 [] [] none 1
          [("oldhash", 1)]).configHash :=
  ⟨(C8_hash_gauge_single_label (MgrState.mk (α := Nat) ⟨10, "f", "filesystem"⟩ 0
      [] [] none 1 [("oldhash", 1)]) (.ok [97]) (fun _ => .ok 4)).1
      [97] 4 rfl rfl,
   (C8_hash_gauge_single_label (MgrState.mk (α := Nat) ⟨10, "f", "filesystem"⟩ 0
      [] [] none 1 [("oldhash", 1)]) (.error "gone") (fun _ => .ok 4)).2 rfl⟩

/-- The iterator state after k calls to Next: the series list is fixed
and the index is the number of successful steps so far, minus one. -/
theorem advance_state {L C : Type} (l : List (Series L C)) (k : Nat) :
    (advance (newStoreSeriesSet l) k).series = l
    ∧ (advance (newStoreSeriesSet l) k).i = (↑(min k l.length) : Int) - 1 := by
  induction k with
  | zero => exact ⟨rfl, by simp [advance, newStoreSeriesSet]⟩
  | succ k ih =>
      obtain ⟨hs, hi⟩ := ih
      simp only [advance, storeSeriesSet.Next]
      by_cases hk : k < l.length
      · have hmin : min k l.length = k := min_eq_left (Nat.le_of_lt hk)
        rw [hmin] at hi
        have hcond : ¬ ((advance (newStoreSeriesSet l) k).i
            ≥ ((advance (newStoreSeriesSet l) k).series.length : Int) - 1) := by
          rw [hs, hi]
          omega
        rw [if_neg hcond]
        refine ⟨hs, ?_⟩
        show (advance (newStoreSeriesSet l) k).i + 1
            = (↑(min (k + 1) l.length) : Int) - 1
        rw [hi]
        have hmin1 : min (k + 1) l.length = k + 1 := min_eq_left hk
        rw [hmin1]
        omega
      · have hmin : min k l.length = l.length := min_eq_right (Nat.le_of_not_lt hk)
        rw [hmin] at hi
        have hcond : (advance (newStoreSeriesSet l) k).i
            ≥ ((advance (newStoreSeriesSet l) k).series.length : Int) - 1 := by
          rw [hs, hi]
        rw [if_pos hcond]
        refine ⟨hs, ?_⟩
        show (advance (newStoreSeriesSet l) k).i
            = (↑(min (k + 1) l.length) : Int) - 1
        rw [hi]
        have hmin1 : min (k + 1) l.length = l.length := min_eq_right (by omega)
        rw [hmin1]

/-- C10: the iterator starts at index -1 where At is undefined (absent),
Err is always nil, the k-th Next call for k below the series count
returns true and leaves the index at that element so At reads it, and
once the series are exhausted Next returns false forever with the state
frozen. -/
theorem C10_series_iterator {L C : Type} (l : List (Series L C)) :
    (newStoreSeriesSet l).i = -1
    ∧ (newStoreSeriesSet l).At = none
    ∧ (∀ k : Nat, (advance (newStoreSeriesSet l) k).Err = none)
    ∧ (∀ k : Nat, k < l.length →
        ((advance (newStoreSeriesSet l) k).Next.2 = true
         ∧ (advance (newStoreSeriesSet l) (k + 1)).i = (k : Int)
         ∧ (advance (newStoreSeriesSet l) (k + 1)).At
             = (l.get? k).map (fun e => (e.lbls, e.chunks))))
    ∧ (∀ k : Nat, l.length ≤ k →
        ((advance (newStoreSeriesSet l) k).Next.2 = false
         ∧ advance (newStoreSeriesSet l) (k + 1)
             = advance (newStoreSeriesSet l) k)) := by
  refine ⟨rfl, by norm_num [storeSeriesSet.At, newStoreSeriesSet], fun k => rfl,
    fun k hk => ?_, fun k hk => ?_⟩
  · obtain ⟨hs, hi⟩ := advance_state l k
    have hmin : min k l.length = k := min_eq_left (Nat.le_of_lt hk)
    rw [hmin] at hi
    have hcond : ¬ ((advance (newStoreSeriesSet l) k).i
        ≥ ((advance (newStoreSeriesSet l) k).series.length : Int) - 1) := by
      rw [hs, hi]
      omega
    obtain ⟨hs1, hi1⟩ := advance_state l (k + 1)
    have hmin1 : min (k + 1) l.length = k + 1 := min_eq_left hk
    rw [hmin1] at hi1
    have hik : (advance (newStoreSeriesSet l) (k + 1)).i = (k : Int) := by
      rw [hi1]
      omega
    refine ⟨?_, hik, ?_⟩
    · simp only [storeSeriesSet.Next]
      rw [if_neg hcond]
    · simp only [storeSeriesSet.At, hs1, hik]
      rw [if_pos (Int.ofNat_nonneg k)]
      simp
  · obtain ⟨hs, hi⟩ := advance_state l k
    have hmin : min k l.length = l.length := min_eq_right hk
    rw [hmin] at hi
    have hcond : (advance (newStoreSeriesSet l) k).i
        ≥ ((advance (newStoreSeriesSet l) k).series.length : Int) - 1 := by
      rw [hs, hi]
    constructor
    · simp only [storeSeriesSet.Next]
      rw [if_pos hcond]
    · show (advance (newStoreSeriesSet l) k).Next.1 = advance (newStoreSeriesSet l) k
      simp only [storeSeriesSet.Next]
      rw [if_pos hcond]

/-- C10 witness: a two-element series list, stepping to each element and
past the end. -/
theorem C10_series_iterator_witness :
    (newStoreSeriesSet ([⟨10, [1]⟩, ⟨20, [2]⟩] : List (Series Nat Nat))).i = -1
    ∧ (newStoreSeriesSet ([⟨10, [1]⟩, ⟨20, [2]⟩] : List (Series Nat Nat))).At = none
    ∧ (advance (newStoreSeriesSet ([⟨10, [1]⟩, ⟨20, [2]⟩] :
        List (Series Nat Nat))) 1).Next.2 = true
    ∧ (advance (newStoreSeriesSet ([⟨10, [1]⟩, ⟨20, [2]⟩] :
        List (Series Nat Nat))) 2).At = some (20, [2])
    ∧ (advance (newStoreSeriesSet ([⟨10, [1]⟩, ⟨20, [2]⟩] :
        List (Series Nat Nat))) 2).Next.2 = false
    ∧ advance (newStoreSeriesSet ([⟨10, [1]⟩, ⟨20, [2]⟩] :
        List (Series Nat Nat))) 3
      = advance (newStoreSeriesSet ([⟨10, [1]⟩, ⟨20, [2]⟩] :
        List (Series Nat Nat))) 2 := by
  have h := C10_series_iterator ([⟨10, [1]⟩, ⟨20, [2]⟩] : List (Series Nat Nat))
  refine ⟨h.1, h.2.1, (h.2.2.2.1 1 (by decide)).1, ?_,
    (h.2.2.2.2 2 (by decide)).1, (h.2.2.2.2 2 (by decide)).2⟩
  have h2 := (h.2.2.2.1 1 (by decide)).2.2
  simpa using h2

/-- Sanity check: the embedded SHA-256 digests the empty message to the
standard value. -/
theorem sha256hex_empty_message :
    sha256hex [] = "e3b0c44298fc1c149afbf4c8996fb92427ae41e4649b934ca495991b7852b855" := by
  set_option maxRecDepth 10000 in decide

/-- Sanity check: the embedded SHA-256 digests "abc" to the standard
value. -/
theorem sha256hex_abc_message :
    sha256hex [97, 98, 99]
      = "ba7816bf8f01cfea414140de5dae2223b00361a396177a9cb410ff61f20015ad" := by
  set_option maxRecDepth 10000 in decide

end Cortex
